import Mathlib

/-!
Verification of the Todo query/pagination engine and CRUD contract of the
qa-assignment repository, against its two reference backends:
the Go implementation (internal/services/todo_service.go,
internal/repository/todo_repository.go) and the Node implementation
(src/services/TodoService.js, src/repositories/TodoRepository.js).

Machine strings are modelled as Lean String values; trimming
(Go strings.TrimSpace, JS String.prototype.trim) is modelled over the
character list; string lengths count characters; timestamps are Nat ticks;
the SQLite todos table is a List Todo in rowid (insertion) order, with the
AUTOINCREMENT sequence carried as a separate counter.
-/

namespace TodoSpec

/-- Whitespace characters recognised when trimming (ASCII subset shared by
Go strings.TrimSpace and JS String.prototype.trim). -/
def isWs (c : Char) : Bool :=
  c = ' ' || c = '\t' || c = '\n' || c = '\r'

/-- Trim whitespace from both ends of a character list. -/
def trimChars (l : List Char) : List Char :=
  ((l.dropWhile isWs).reverse.dropWhile isWs).reverse

/-- Model of Go strings.TrimSpace and JS String.prototype.trim. -/
def strTrim (s : String) : String :=
  String.mk (trimChars s.data)

/-- ASCII lower-casing of a single character, as used by the default SQLite
LIKE collation (case-insensitive for ASCII letters). -/
def lowerA (c : Char) : Char :=
  if 'A' ≤ c && c ≤ 'Z' then Char.ofNat (c.toNat + 32) else c

/-- SQL LIKE pattern matching over character lists: the percent character
matches any sequence of characters (tried here as every suffix of the
subject), the underscore character matches any single character, and other
characters match ASCII-case-insensitively (SQLite default collation). -/
def likeMatch : List Char → List Char → Bool
  | [], s => s.isEmpty
  | '%' :: ps, s => s.tails.any (fun t => likeMatch ps t)
  | '_' :: ps, s =>
    (match s with
     | [] => false
     | _ :: t => likeMatch ps t)
  | p :: ps, s =>
    (match s with
     | [] => false
     | c :: t => (lowerA p = lowerA c) && likeMatch ps t)

/-- SQL LIKE on strings. -/
def sqlLike (pattern s : String) : Bool :=
  likeMatch pattern.data s.data

/-- The LIKE pattern both repositories build from a search term:
percent, term, percent. -/
def searchPattern (term : String) : String :=
  "%" ++ term ++ "%"

/-- The Todo entity (models.Todo in Go, the todos table row in Node). -/
structure Todo where
  id : Nat
  title : String
  description : Option String
  completed : Bool
  created_at : Nat
  updated_at : Nat
deriving DecidableEq, Repr

/-- The SQL search condition: title LIKE pattern OR description LIKE
pattern. A NULL description never matches (SQL three-valued logic). -/
def rowMatchesSearch (term : String) (t : Todo) : Bool :=
  sqlLike (searchPattern term) t.title ||
    (match t.description with
     | some d => sqlLike (searchPattern term) d
     | none => false)

/-- The WHERE clause both repositories build: optional search condition AND
optional completed equality. -/
def matchesWhere (search : Option String) (completedF : Option Bool) (t : Todo) : Bool :=
  (match search with
   | some term => rowMatchesSearch term t
   | none => true) &&
  (match completedF with
   | some b => t.completed = b
   | none => true)

/-- ORDER BY key comparison for ascending order, per sort column.
SQLite compares completed as the integers 0 and 1, text by collation,
timestamps by value. Unknown columns never reach here (both backends
either validate or replace the sort field first); created_at is the
fallthrough. -/
def sortKeyLe (sort : String) (a b : Todo) : Bool :=
  if sort = "id" then a.id ≤ b.id
  else if sort = "title" then a.title ≤ b.title
  else if sort = "completed" then (cond a.completed 1 0 : Nat) ≤ cond b.completed 1 0
  else if sort = "updated_at" then a.updated_at ≤ b.updated_at
  else a.created_at ≤ b.created_at

/-- ORDER BY comparison including the direction. -/
def orderLe (sort order : String) (a b : Todo) : Bool :=
  if order = "asc" then sortKeyLe sort a b else sortKeyLe sort b a

/-- Insert into a sorted list (auxiliary for the ORDER BY model). -/
def insertSorted (le : Todo → Todo → Bool) (x : Todo) : List Todo → List Todo
  | [] => [x]
  | y :: ys => if le x y then x :: y :: ys else y :: insertSorted le x ys

/-- Model of the SQL ORDER BY: a deterministic comparison sort. Rows with
equal keys keep an unspecified relative order in SQLite; this model fixes
one. -/
def sortRows (le : Todo → Todo → Bool) : List Todo → List Todo
  | [] => []
  | x :: xs => insertSorted le x (sortRows le xs)

theorem insertSorted_perm (le : Todo → Todo → Bool) (x : Todo) (l : List Todo) :
    (insertSorted le x l).Perm (x :: l) := by
  induction l with
  | nil => simp [insertSorted]
  | cons y ys ih =>
    simp only [insertSorted]
    by_cases h : le x y
    · simp [h]
    · simp only [h, if_neg]
      exact ((ih.cons y).trans (List.Perm.swap x y ys)).symm.symm

theorem sortRows_perm (le : Todo → Todo → Bool) (l : List Todo) :
    (sortRows le l).Perm l := by
  induction l with
  | nil => simp [sortRows]
  | cons x xs ih =>
    exact (insertSorted_perm le x (sortRows le xs)).trans (ih.cons x)

/-- The persistent store: the rows of the todos table in rowid order plus
the AUTOINCREMENT sequence (ids are never reused after deletion). -/
structure Store where
  rows : List Todo
  seq : Nat
deriving DecidableEq, Repr

namespace Go

/-- models.QueryParams of the Go backend. Page and PerPage are Go ints. -/
structure QueryParams where
  Page : Int
  PerPage : Int
  SortF : String
  Order : String
  Search : String
  Completed : Option Bool
deriving DecidableEq, Repr

/-- models.PaginatedResponse of the Go backend. -/
structure PaginatedResponse where
  Data : List Todo
  Total : Nat
  Page : Int
  PerPage : Int
  TotalPages : Nat
deriving DecidableEq, Repr

/-- An empty search string means no search condition in the Go repository
(GetAll only adds the LIKE condition when params.Search is not empty). -/
def searchOpt (s : String) : Option String :=
  if s = "" then none else some s

/-- todoRepository.GetAll: count the rows matching the WHERE clause, then
select the same WHERE clause ordered and paginated. Returns the page slice
and the total count. -/
def GetAll (db : List Todo) (params : QueryParams) : List Todo × Nat :=
  let matched := db.filter (matchesWhere (searchOpt params.Search) params.Completed)
  let total := matched.length
  let sorted := sortRows (orderLe params.SortF params.Order) matched
  let offset := ((params.Page - 1) * params.PerPage).toNat
  ((sorted.drop offset).take params.PerPage.toNat, total)

/-- The sort-field allow list of todoService.GetTodos. -/
def validSortFields : List String :=
  ["id", "title", "completed", "created_at", "updated_at"]

/-- todoService.GetTodos: clamp page and per-page to the defaults, default
an empty sort field and order, reject an invalid sort field or order with
an error, then query and build the paginated response with
totalPages = (total + perPage - 1) / perPage. -/
def GetTodos (db : List Todo) (params0 : QueryParams) : Except String PaginatedResponse :=
  let page := if params0.Page < 1 then 1 else params0.Page
  let perPage := if params0.PerPage < 1 || params0.PerPage > 100 then 20 else params0.PerPage
  let sort := if params0.SortF = "" then "created_at" else params0.SortF
  let order := if params0.Order = "" then "desc" else params0.Order
  if !(validSortFields.contains sort) then
    .error ("invalid sort field: " ++ sort)
  else if order ≠ "asc" && order ≠ "desc" then
    .error ("invalid order: " ++ order)
  else
    let params : QueryParams :=
      { Page := page, PerPage := perPage, SortF := sort, Order := order,
        Search := params0.Search, Completed := params0.Completed }
    let res := GetAll db params
    let totalPages := (res.2 + perPage.toNat - 1) / perPage.toNat
    .ok { Data := res.1, Total := res.2, Page := page, PerPage := perPage,
          TotalPages := totalPages }

/-- todoService.GetTodoStats: fetch todos with PerPage set to 1000
(intending to get all of them), then count completed and pending over the
returned page while taking the total from the response. -/
def GetTodoStats (db : List Todo) : Except String (Nat × Nat × Nat) := do
  let resp ← GetTodos db
    { Page := 1, PerPage := 1000, SortF := "created_at", Order := "desc",
      Search := "", Completed := none }
  let completed := (resp.Data.filter (fun t => t.completed)).length
  let pending := (resp.Data.filter (fun t => !t.completed)).length
  return (resp.Total, completed, pending)

/-- todoRepository.DeleteAll: delete every row, then fail when the number
of affected rows is zero. -/
def DeleteAll (db : List Todo) : Except String (List Todo) :=
  let rowsAffected := db.length
  if rowsAffected = 0 then .error "no todos found to delete" else .ok []

/-- models.CreateTodoRequest of the Go backend. -/
structure CreateTodoRequest where
  Title : String
  Description : Option String
  Completed : Bool
deriving DecidableEq, Repr

/-- todoService.validateCreateRequest: title must be non-empty after
trimming, then the raw title length is checked against 255, then the raw
description length against 1000. -/
def validateCreateRequest (req : CreateTodoRequest) : Except String Unit :=
  if strTrim req.Title = "" then .error "title is required"
  else if req.Title.length > 255 then .error "title cannot exceed 255 characters"
  else
    match req.Description with
    | some d =>
      if d.length > 1000 then .error "description cannot exceed 1000 characters" else .ok ()
    | none => .ok ()

/-- todoService.CreateTodo followed by todoRepository.Create: validate,
trim the title, collapse a whitespace-only description to NULL, insert the
row (the database assigns the next id and sets both timestamps to the same
current time), and return the stored entity. -/
def CreateTodo (st : Store) (now : Nat) (req : CreateTodoRequest) :
    Except String (Store × Todo) := do
  validateCreateRequest req
  let desc :=
    match req.Description with
    | some d => if strTrim d = "" then none else some (strTrim d)
    | none => none
  let todo : Todo :=
    { id := st.seq + 1, title := strTrim req.Title, description := desc,
      completed := req.Completed, created_at := now, updated_at := now }
  return ({ rows := st.rows ++ [todo], seq := st.seq + 1 }, todo)

/-- models.UpdateTodoRequest of the Go backend: every field optional. -/
structure UpdateTodoRequest where
  Title : Option String
  Description : Option String
  Completed : Option Bool
deriving DecidableEq, Repr

/-- True when no field at all is supplied (the updates map stays empty). -/
def noFields (req : UpdateTodoRequest) : Bool :=
  req.Title.isNone && req.Description.isNone && req.Completed.isNone

/-- todoService.validateUpdateRequest: a supplied title must be non-empty
after trimming and its raw length at most 255; a supplied description must
have raw length at most 1000. -/
def validateUpdateRequest (req : UpdateTodoRequest) : Except String Unit :=
  if req.Title.any (fun t => strTrim t = "") then .error "title cannot be empty"
  else if req.Title.any (fun t => t.length > 255) then .error "title cannot exceed 255 characters"
  else if req.Description.any (fun d => d.length > 1000) then
    .error "description cannot exceed 1000 characters"
  else .ok ()

/-- The row mutation performed by todoRepository.Update for a non-empty
updates map built by todoService.UpdateTodo: supplied title is stored
trimmed, a supplied description is stored trimmed or as NULL when blank,
a supplied completed flag is stored, and updated_at is set to the current
time. -/
def applyUpdate (req : UpdateTodoRequest) (now : Nat) (t : Todo) : Todo :=
  { t with
    title := match req.Title with | some s => strTrim s | none => t.title
    description :=
      match req.Description with
      | some s => if strTrim s = "" then none else some (strTrim s)
      | none => t.description
    completed := match req.Completed with | some b => b | none => t.completed
    updated_at := now }

/-- The UPDATE ... WHERE id = ? statement: rewrite the matching row. -/
def updatedRows (req : UpdateTodoRequest) (now id : Nat) (rows : List Todo) : List Todo :=
  rows.map (fun t => if t.id = id then applyUpdate req now t else t)

/-- todoService.UpdateTodo: reject a non-positive id, validate, return
none when the id does not exist, and otherwise apply the update through
todoRepository.Update — which, for an empty updates map, just re-reads the
row and touches nothing, updated_at included. -/
def UpdateTodo (st : Store) (now : Nat) (id : Nat) (req : UpdateTodoRequest) :
    Except String (Option (Store × Todo)) := do
  if id = 0 then
    throw "invalid todo ID"
  validateUpdateRequest req
  match st.rows.find? (fun t => t.id = id) with
  | none => return none
  | some t0 =>
    if noFields req then
      return some (st, t0)
    else
      let rows := updatedRows req now id st.rows
      match rows.find? (fun t => t.id = id) with
      | some t1 => return some ({ st with rows := rows }, t1)
      | none => return none

end Go

namespace Node

/-- The query options reaching TodoService.getTodos; absent keys are
Option-none (the service merges them over its defaults). -/
structure QueryOptions where
  page : Option Int
  per_page : Option Int
  sort : Option String
  order : Option String
  search : Option String
  completed : Option Bool
deriving DecidableEq, Repr

/-- The options object after TodoService.validateQueryOptions. -/
structure ValidatedOptions where
  page : Int
  per_page : Int
  sort : String
  order : String
  search : Option String
  completed : Option Bool
deriving DecidableEq, Repr

/-- The allow list of TodoService.validateQueryOptions. -/
def allowedSortFields : List String :=
  ["id", "title", "completed", "created_at", "updated_at"]

/-- TodoService.validateQueryOptions: merge over the defaults, clamp page
and per_page, silently replace an invalid sort field or order by its
default, and reject only an over-long search string. -/
def validateQueryOptions (o : QueryOptions) : Except String ValidatedOptions :=
  let page0 := o.page.getD 1
  let per0 := o.per_page.getD 20
  let sort0 := o.sort.getD "created_at"
  let order0 := o.order.getD "desc"
  let page := if page0 < 1 then 1 else page0
  let per_page := if per0 < 1 || per0 > 100 then 20 else per0
  let sort := if allowedSortFields.contains sort0 then sort0 else "created_at"
  let order := if order0 = "asc" || order0 = "desc" then order0 else "desc"
  if (match o.search with
      | some s => s ≠ "" && s.length > 255
      | none => false) then
    .error "Search query too long"
  else
    .ok { page := page, per_page := per_page, sort := sort, order := order,
          search := o.search, completed := o.completed }

/-- The page envelope built by TodoRepository.findAll. -/
structure Envelope where
  data : List Todo
  total : Nat
  page : Int
  per_page : Int
  total_pages : Nat
deriving DecidableEq, Repr

/-- An absent or empty search string adds no condition in
TodoRepository.findAll (the falsy check on search). -/
def searchOptN (s : Option String) : Option String :=
  match s with
  | some t => if t = "" then none else some t
  | none => none

/-- TodoRepository.findAll: count with the WHERE clause, select the same
WHERE clause sorted and paginated, and return the envelope echoing the
received page and per_page, with total_pages the ceiling of
total / per_page. -/
def findAll (db : List Todo) (v : ValidatedOptions) : Envelope :=
  let matched := db.filter (matchesWhere (searchOptN v.search) v.completed)
  let total := matched.length
  let sorted := sortRows (orderLe v.sort v.order) matched
  let offset := ((v.page - 1) * v.per_page).toNat
  { data := (sorted.drop offset).take v.per_page.toNat,
    total := total, page := v.page, per_page := v.per_page,
    total_pages := (total + v.per_page.toNat - 1) / v.per_page.toNat }

/-- TodoService.getTodos: validate the options then query. -/
def getTodos (db : List Todo) (o : QueryOptions) : Except String Envelope := do
  let v ← validateQueryOptions o
  return findAll db v

/-- TodoRepository.getStats: three COUNT queries over the full table.
Returns total, completed and pending counts. -/
def getStats (db : List Todo) : Nat × Nat × Nat :=
  (db.length,
   (db.filter (fun t => t.completed)).length,
   (db.filter (fun t => !t.completed)).length)

/-- TodoRepository.deleteAll: count first; on an empty table return a zero
deleted count without failing, otherwise delete every row and return how
many were removed. Returns the new table and the deleted count. -/
def deleteAll (db : List Todo) : List Todo × Nat :=
  if db.length = 0 then (db, 0) else ([], db.length)

/-- TodoService.validateTodoData for create: title required and non-blank,
raw title length at most 255, raw description length at most 1000. -/
def validateTodoData (title : String) (description : Option String) : Except String Unit :=
  if title = "" || strTrim title = "" then .error "Title is required"
  else if title.length > 255 then .error "Title cannot exceed 255 characters"
  else
    match description with
    | some d =>
      if d.length > 1000 then .error "Description cannot exceed 1000 characters" else .ok ()
    | none => .ok ()

/-- The description part of TodoService.sanitizeTodoData and
sanitizeUpdateData: trim, and collapse a blank result to null. -/
def sanitizeDesc (d : Option String) : Option String :=
  match d with
  | some s => if strTrim s = "" then none else some (strTrim s)
  | none => none

/-- TodoService.createTodo followed by TodoRepository.create: validate,
sanitize (trim the title, normalize the description), insert the row (the
database assigns the id and sets both timestamps to the same current
time), and return the stored entity. -/
def createTodo (st : Store) (now : Nat) (title : String) (description : Option String)
    (completed : Bool) : Except String (Store × Todo) := do
  validateTodoData title description
  let t : Todo :=
    { id := st.seq + 1, title := strTrim title, description := sanitizeDesc description,
      completed := completed, created_at := now, updated_at := now }
  return ({ rows := st.rows ++ [t], seq := st.seq + 1 }, t)

/-- TodoService.validateUpdateData: an update object with zero supplied
fields is rejected; a supplied title must be non-blank with raw length at
most 255; a supplied description must have raw length at most 1000. -/
def validateUpdateData (req : Go.UpdateTodoRequest) : Except String Unit :=
  if Go.noFields req then .error "At least one field must be provided"
  else if req.Title.any (fun t => t = "" || strTrim t = "") then .error "Title cannot be empty"
  else if req.Title.any (fun t => t.length > 255) then .error "Title cannot exceed 255 characters"
  else if req.Description.any (fun d => d.length > 1000) then
    .error "Description cannot exceed 1000 characters"
  else .ok ()

/-- TodoService.updateTodo: validate the id and the update object, sanitize
(trim title, normalize description), fail with NotFound when the id does
not exist, and otherwise apply the supplied fields plus updated_at through
TodoRepository.update. The transported field semantics coincide with the
Go applyUpdate. -/
def updateTodo (st : Store) (now : Nat) (id : Nat) (req : Go.UpdateTodoRequest) :
    Except String (Store × Todo) := do
  if id = 0 then
    throw "Invalid ID: must be a positive integer"
  validateUpdateData req
  match st.rows.find? (fun t => t.id = id) with
  | none => throw "Todo not found"
  | some _ =>
    let rows := Go.updatedRows req now id st.rows
    match rows.find? (fun t => t.id = id) with
    | some t1 => return ({ st with rows := rows }, t1)
    | none => throw "Todo not found"

end Node

/-! Helper lemmas about trimming, lookup and filtering. -/

theorem dropWhile_head_false (p : Char → Bool) (l : List Char) :
    ∀ h t, l.dropWhile p = h :: t → p h = false := by
  induction l with
  | nil => intro h t hc; simp [List.dropWhile] at hc
  | cons a as ih =>
    intro h t hc
    by_cases ha : p a
    · rw [List.dropWhile_cons_of_pos ha] at hc
      exact ih h t hc
    · rw [List.dropWhile_cons_of_neg ha] at hc
      cases hc
      simpa using ha

theorem dropWhile_of_head_false (p : Char → Bool) (l : List Char)
    (h : ∀ c t, l = c :: t → p c = false) : l.dropWhile p = l := by
  cases l with
  | nil => rfl
  | cons a as => exact List.dropWhile_cons_of_neg (by simp [h a as rfl])

theorem getLast?_dropWhile (p : Char → Bool) (l : List Char)
    (h : l.dropWhile p ≠ []) : (l.dropWhile p).getLast? = l.getLast? := by
  induction l with
  | nil => simp at h
  | cons a as ih =>
    by_cases ha : p a
    · rw [List.dropWhile_cons_of_pos ha] at h ⊢
      have has : as ≠ [] := by
        intro hnil
        rw [hnil] at h
        simp at h
      rw [ih h]
      cases as with
      | nil => exact absurd rfl has
      | cons b bs => rw [List.getLast?_cons_cons]
    · rw [List.dropWhile_cons_of_neg ha]

theorem trimChars_eq_of_ends (l : List Char)
    (hhead : ∀ c t, l = c :: t → isWs c = false)
    (hlast : ∀ c, l.getLast? = some c → isWs c = false) :
    trimChars l = l := by
  unfold trimChars
  rw [dropWhile_of_head_false isWs l hhead]
  have hrev : l.reverse.dropWhile isWs = l.reverse := by
    apply dropWhile_of_head_false
    intro c t hc
    apply hlast
    rw [← List.head?_reverse, hc]
    rfl
  rw [hrev, List.reverse_reverse]

theorem trimChars_head_false (l : List Char) :
    ∀ c t, trimChars l = c :: t → isWs c = false := by
  intro c t hc
  unfold trimChars at hc
  set A := l.dropWhile isWs with hA
  set B := A.reverse.dropWhile isWs with hB
  have hBne : B ≠ [] := by
    intro hnil
    rw [hnil] at hc
    simp at hc
  have h1 : B.reverse.head? = some c := by rw [hc]; rfl
  rw [List.head?_reverse] at h1
  have h2 : B.getLast? = A.reverse.getLast? := getLast?_dropWhile isWs A.reverse hBne
  rw [h2, List.getLast?_reverse] at h1
  cases hAv : A with
  | nil => rw [hAv] at h1; simp at h1
  | cons a as =>
    rw [hAv] at h1
    rw [List.head?_cons] at h1
    obtain rfl : a = c := by injection h1
    exact dropWhile_head_false isWs l a as hAv

theorem trimChars_getLast_false (l : List Char) :
    ∀ c, (trimChars l).getLast? = some c → isWs c = false := by
  intro c hc
  unfold trimChars at hc
  rw [List.getLast?_reverse] at hc
  cases hBv : (l.dropWhile isWs).reverse.dropWhile isWs with
  | nil => rw [hBv] at hc; simp at hc
  | cons b bs =>
    rw [hBv] at hc
    rw [List.head?_cons] at hc
    obtain rfl : b = c := by injection hc
    exact dropWhile_head_false isWs (l.dropWhile isWs).reverse b bs hBv

theorem trimChars_idem (l : List Char) : trimChars (trimChars l) = trimChars l :=
  trimChars_eq_of_ends (trimChars l) (trimChars_head_false l) (trimChars_getLast_false l)

theorem strTrim_idem (s : String) : strTrim (strTrim s) = strTrim s := by
  show String.mk (trimChars (trimChars s.data)) = String.mk (trimChars s.data)
  rw [trimChars_idem]

theorem find?_map_ite (rows : List Todo) (id : Nat) (f : Todo → Todo)
    (hf : ∀ t, (f t).id = t.id) :
    (rows.map (fun t => if t.id = id then f t else t)).find? (fun t => t.id = id)
      = (rows.find? (fun t => t.id = id)).map f := by
  induction rows with
  | nil => rfl
  | cons a as ih =>
    by_cases ha : a.id = id
    · have hfa : (if a.id = id then f a else a) = f a := if_pos ha
      simp only [List.map_cons, hfa]
      rw [List.find?_cons_of_pos _ (by simp [hf, ha]),
        List.find?_cons_of_pos _ (by simp [ha])]
      rfl
    · have hfa : (if a.id = id then f a else a) = a := if_neg ha
      simp only [List.map_cons, hfa]
      rw [List.find?_cons_of_neg _ (by simp [ha]),
        List.find?_cons_of_neg _ (by simp [ha])]
      exact ih

theorem filter_completed_partition (p : Todo → Bool) (l : List Todo) :
    (l.filter (fun t => p t && t.completed) ++
      l.filter (fun t => p t && !t.completed)).Perm (l.filter p) := by
  induction l with
  | nil => simp
  | cons a as ih =>
    by_cases hp : p a
    · by_cases hcomp : a.completed
      · simp only [List.filter_cons, hp, hcomp]
        simpa using ih.cons a
      · simp only [List.filter_cons, hp, hcomp]
        simp only [Bool.and_true, Bool.and_false, Bool.not_false, Bool.not_true]
        refine List.Perm.trans ?_ ((ih.cons a).trans ?_)
        · exact List.perm_middle
        · rfl
    · simp only [List.filter_cons, hp]
      simpa using ih

/-! Fixtures used by concrete evaluations. -/

/-- A store with 21 pending todos with distinct creation times. -/
def statsBugDb : List Todo :=
  (List.range 21).map (fun i =>
    { id := i + 1, title := "t", description := none, completed := false,
      created_at := i, updated_at := i })

/-- A single concrete todo. -/
def t0 : Todo :=
  { id := 1, title := "Buy milk", description := none, completed := false,
    created_at := 0, updated_at := 0 }

/-! Claims. -/

/-- Claim C1: the spec says Stats returns counts over the full unfiltered
collection with completed + pending == total regardless of how many todos
exist. The Go service asks GetTodos for PerPage 1000 intending to fetch
every todo, but GetTodos clamps any per-page above 100 down to 20, so
completed and pending are counted over the first 20 rows only while total
is the full count: on 21 pending todos it returns total 21, completed 0,
pending 20, and 0 + 20 is not 21. -/
theorem C1_go_stats_counts_only_first_page :
    Go.GetTodoStats statsBugDb = .ok (21, 0, 20) ∧ 0 + 20 ≠ 21 :=
  ⟨by rfl, by decide⟩

/-- Claim C2, counterexample: on an already-empty store the Go repository
DeleteAll does not succeed with count 0 — it fails. -/
theorem C2_go_deleteAll_fails_on_empty :
    Go.DeleteAll ([] : List Todo) = .error "no todos found to delete" := by
  rfl

/-- Claim C2 as amended: DeleteAll removes every entity unconditionally;
the Node implementation returns the deleted count and succeeds with count
0 on an already-empty store, while the Go implementation returns no count
and fails with an error when the store was already empty. -/
theorem C2_deleteAll_contract (db : List Todo) :
    (Node.deleteAll db).1 = [] ∧ (Node.deleteAll db).2 = db.length ∧
    (db ≠ [] → Go.DeleteAll db = .ok []) ∧
    (db = [] → Go.DeleteAll db = .error "no todos found to delete") := by
  by_cases hdb : db = []
  · subst hdb
    exact ⟨rfl, rfl, fun h => absurd rfl h, fun _ => rfl⟩
  · have hlen : db.length ≠ 0 := by simpa [List.length_eq_zero] using hdb
    refine ⟨?_, ?_, fun _ => ?_, fun h => absurd h hdb⟩
    · simp [Node.deleteAll, hlen]
    · simp [Node.deleteAll, hlen]
    · simp [Go.DeleteAll, hlen]

/-- Witness for C2: both branches at concrete stores. -/
theorem C2_deleteAll_contract_witness :
    Go.DeleteAll [t0] = .ok [] ∧
    Go.DeleteAll ([] : List Todo) = .error "no todos found to delete" :=
  ⟨(C2_deleteAll_contract [t0]).2.2.1 (by decide),
   (C2_deleteAll_contract []).2.2.2 rfl⟩

/-- Claim C3, counterexample: the Node service-level validateQueryOptions,
given the invalid sort field bogus and the invalid order sideways, does
not fail — it silently substitutes the defaults created_at and desc. -/
theorem C3_node_service_silently_defaults :
    Node.validateQueryOptions
      { page := none, per_page := none, sort := some "bogus",
        order := some "sideways", search := none, completed := none } =
      .ok { page := 1, per_page := 20, sort := "created_at", order := "desc",
            search := none, completed := none } := by
  rfl

/-- Claim C3 as amended: the Go implementation rejects an invalid sort
field or order with an error and returns no result, while the Node
service-level validateQueryOptions silently substitutes the defaults
created_at and desc for invalid sort or order values (rejection of such
values happens only in the HTTP-layer schema, outside the store). -/
theorem C3_invalid_sort_order_handling :
    (∀ (db : List Todo) (p : Go.QueryParams), p.SortF ≠ "" →
      Go.validSortFields.contains p.SortF = false →
      Go.GetTodos db p = .error ("invalid sort field: " ++ p.SortF)) ∧
    (∀ (db : List Todo) (p : Go.QueryParams),
      Go.validSortFields.contains p.SortF = true →
      p.Order ≠ "" → p.Order ≠ "asc" → p.Order ≠ "desc" →
      Go.GetTodos db p = .error ("invalid order: " ++ p.Order)) ∧
    (∀ (o : Node.QueryOptions) (s : String) (v : Node.ValidatedOptions),
      Node.allowedSortFields.contains s = false →
      Node.validateQueryOptions { o with sort := some s } = .ok v →
      v.sort = "created_at") ∧
    (∀ (o : Node.QueryOptions) (s : String) (v : Node.ValidatedOptions),
      s ≠ "asc" → s ≠ "desc" →
      Node.validateQueryOptions { o with order := some s } = .ok v →
      v.order = "desc") := by
  refine ⟨?_, ?_, ?_, ?_⟩
  · intro db p hne hcont
    simp only [Go.GetTodos, if_neg hne, hcont]
    rfl
  · intro db p hcont hne hasc hdesc
    have hsne : p.SortF ≠ "" := by
      intro h
      rw [h] at hcont
      simp [Go.validSortFields] at hcont
    simp only [Go.GetTodos, if_neg hsne, hcont, if_neg hne]
    simp [hasc, hdesc]
  · intro o s v hcont hok
    simp only [Node.validateQueryOptions, Option.getD_some, hcont] at hok
    split at hok
    · exact absurd hok (by simp)
    · injection hok with h
      rw [← h]
      simp
  · intro o s v hasc hdesc hok
    simp only [Node.validateQueryOptions, Option.getD_some] at hok
    split at hok
    · exact absurd hok (by simp)
    · injection hok with h
      rw [← h]
      simp [hasc, hdesc]

/-- For parameters that are already within range and valid, the Go service
passes them through unchanged and wraps the repository result. -/
theorem GetTodos_valid (db : List Todo) (p : Go.QueryParams)
    (hpage : 1 ≤ p.Page) (hpp1 : 1 ≤ p.PerPage) (hpp2 : p.PerPage ≤ 100)
    (hsort : Go.validSortFields.contains p.SortF = true)
    (horder : p.Order = "asc" ∨ p.Order = "desc") :
    Go.GetTodos db p = .ok
      { Data := (Go.GetAll db p).1, Total := (Go.GetAll db p).2,
        Page := p.Page, PerPage := p.PerPage,
        TotalPages := ((Go.GetAll db p).2 + p.PerPage.toNat - 1) / p.PerPage.toNat } := by
  have h1 : ¬ p.Page < 1 := by omega
  have h2 : (p.PerPage < 1 || p.PerPage > 100) = false := by
    simp only [Bool.or_eq_false_iff, decide_eq_false_iff_not]
    omega
  have hsne : p.SortF ≠ "" := by
    intro h
    rw [h] at hsort
    simp [Go.validSortFields] at hsort
  have hone : p.Order ≠ "" := by
    rcases horder with h | h <;> simp [h]
  have hmem : p.SortF ∈ Go.validSortFields := by simpa using hsort
  have horderb : (decide (p.Order ≠ "asc") && decide (p.Order ≠ "desc")) = false := by
    rcases horder with h | h <;> simp [h]
  simp only [Go.GetTodos, if_neg h1, h2, if_neg hsne, if_neg hone, horderb, hmem]
  simp
  exact hmem

/-- The all-absent query options. -/
def qNone : Node.QueryOptions :=
  { page := none, per_page := none, sort := none, order := none,
    search := none, completed := none }

/-- The fully-default validated options. -/
def vDefault : Node.ValidatedOptions :=
  { page := 1, per_page := 20, sort := "created_at", order := "desc",
    search := none, completed := none }

/-- Witness for C3: the Go service rejects a bogus sort field and order at
concrete inputs; the Node service silently defaults them. -/
theorem C3_invalid_sort_order_handling_witness :
    Go.GetTodos []
      { Page := 1, PerPage := 20, SortF := "bogus", Order := "asc",
        Search := "", Completed := none } = .error "invalid sort field: bogus" ∧
    Go.GetTodos []
      { Page := 1, PerPage := 20, SortF := "id", Order := "sideways",
        Search := "", Completed := none } = .error "invalid order: sideways" ∧
    (Node.validateQueryOptions { qNone with sort := some "nope" }).map
      (fun v => v.sort) = .ok "created_at" := by
  refine ⟨?_, ?_, ?_⟩
  · exact C3_invalid_sort_order_handling.1 [] _ (by decide) (by decide)
  · exact C3_invalid_sort_order_handling.2.1 [] _ (by decide) (by decide) (by decide) (by decide)
  · have h3 := C3_invalid_sort_order_handling.2.2.1 qNone "nope" vDefault (by decide) rfl
    rw [show Node.validateQueryOptions { qNone with sort := some "nope" } = .ok vDefault from rfl]
    exact congrArg Except.ok h3

/-- Claim C4: for valid List parameters, the returned total counts exactly
the rows matching the same filter predicate (completed filter and search)
that selects the page, the page is drop (page-1)*perPage then take perPage
of the filtered-and-sorted rows, total pages is the ceiling of
total / perPage, and the total is invariant under page and per-page
changes with the filters held fixed — in the Go service and in the Node
repository alike. -/
theorem C4_count_and_page_share_predicate (db : List Todo) (p : Go.QueryParams)
    (hpage : 1 ≤ p.Page) (hpp1 : 1 ≤ p.PerPage) (hpp2 : p.PerPage ≤ 100)
    (hsort : Go.validSortFields.contains p.SortF = true)
    (horder : p.Order = "asc" ∨ p.Order = "desc") :
    ∃ r, Go.GetTodos db p = .ok r ∧
      r.Total = (db.filter (matchesWhere (Go.searchOpt p.Search) p.Completed)).length ∧
      r.Data = ((sortRows (orderLe p.SortF p.Order)
          (db.filter (matchesWhere (Go.searchOpt p.Search) p.Completed))).drop
          (((p.Page - 1) * p.PerPage).toNat)).take p.PerPage.toNat ∧
      r.TotalPages = r.Total ⌈/⌉ p.PerPage.toNat ∧
      (∀ (page2 perPage2 : Int) (r2 : Go.PaginatedResponse),
        1 ≤ page2 → 1 ≤ perPage2 → perPage2 ≤ 100 →
        Go.GetTodos db { p with Page := page2, PerPage := perPage2 } = .ok r2 →
        r2.Total = r.Total) ∧
      (∀ v : Node.ValidatedOptions,
        (Node.findAll db v).total =
          (db.filter (matchesWhere (Node.searchOptN v.search) v.completed)).length ∧
        (Node.findAll db v).data = ((sortRows (orderLe v.sort v.order)
            (db.filter (matchesWhere (Node.searchOptN v.search) v.completed))).drop
            (((v.page - 1) * v.per_page).toNat)).take v.per_page.toNat ∧
        (Node.findAll db v).total_pages = (Node.findAll db v).total ⌈/⌉ v.per_page.toNat ∧
        (∀ (pg pp : Int), (Node.findAll db { v with page := pg, per_page := pp }).total
            = (Node.findAll db v).total)) := by
  refine ⟨_, GetTodos_valid db p hpage hpp1 hpp2 hsort horder, rfl, rfl,
    (Nat.ceilDiv_eq_add_pred_div _ _).symm, ?_, ?_⟩
  · intro page2 perPage2 r2 hq1 hq2 hq3 heq
    rw [GetTodos_valid db { p with Page := page2, PerPage := perPage2 }
      hq1 hq2 hq3 hsort horder] at heq
    injection heq with h
    rw [← h]
    rfl
  · intro v
    exact ⟨rfl, rfl, (Nat.ceilDiv_eq_add_pred_div _ _).symm, fun pg pp => rfl⟩

/-- A concrete valid query. -/
def pW : Go.QueryParams :=
  { Page := 1, PerPage := 20, SortF := "id", Order := "asc",
    Search := "", Completed := none }

/-- Witness for C4 at a concrete store and valid query. -/
theorem C4_count_and_page_share_predicate_witness :
    ∃ r, Go.GetTodos [t0] pW = .ok r ∧
      r.Total = ([t0].filter (matchesWhere (Go.searchOpt pW.Search) pW.Completed)).length := by
  obtain ⟨r, hr, htot, -⟩ :=
    C4_count_and_page_share_predicate [t0] pW (by decide) (by decide) (by decide)
      (by decide) (Or.inl rfl)
  exact ⟨r, hr, htot⟩

/-- The update request with no supplied field. -/
def emptyUpdate : Go.UpdateTodoRequest :=
  { Title := none, Description := none, Completed := none }

/-- Claim C5, counterexample: the Node service rejects an update with zero
supplied fields on an existing id instead of accepting it as a no-op. -/
theorem C5_node_rejects_empty_update :
    Node.updateTodo { rows := [t0], seq := 1 } 5 1 emptyUpdate =
      .error "At least one field must be provided" := by
  rfl

/-- Claim C5 as amended: for an existing id, the Go implementation accepts
a zero-field Update as a no-op that leaves the store and the entity,
updated_at included, unchanged, while the Node implementation rejects a
zero-field update with a validation error; in both implementations an
update with at least one supplied field that passes validation changes
only the supplied fields plus updated_at, which is set to the current time
and therefore strictly increases whenever the clock has advanced. -/
theorem C5_update_field_presence_semantics :
    (∀ (st : Store) (now id : Nat) (t : Todo), id ≠ 0 →
      st.rows.find? (fun u => u.id = id) = some t →
      Go.UpdateTodo st now id emptyUpdate = .ok (some (st, t))) ∧
    (∀ (st : Store) (now id : Nat), id ≠ 0 →
      Node.updateTodo st now id emptyUpdate =
        .error "At least one field must be provided") ∧
    (∀ (st : Store) (now id : Nat) (req : Go.UpdateTodoRequest) (t : Todo),
      id ≠ 0 → Go.noFields req = false → Go.validateUpdateRequest req = .ok () →
      st.rows.find? (fun u => u.id = id) = some t →
      Go.UpdateTodo st now id req =
        .ok (some
          ({ st with rows := Go.updatedRows req now id st.rows },
           Go.applyUpdate req now t))) ∧
    (∀ (st : Store) (now id : Nat) (req : Go.UpdateTodoRequest) (t : Todo),
      id ≠ 0 → Node.validateUpdateData req = .ok () →
      st.rows.find? (fun u => u.id = id) = some t →
      Node.updateTodo st now id req =
        .ok
          ({ st with rows := Go.updatedRows req now id st.rows },
           Go.applyUpdate req now t)) ∧
    (∀ (req : Go.UpdateTodoRequest) (now : Nat) (t : Todo),
      (Go.applyUpdate req now t).id = t.id ∧
      (Go.applyUpdate req now t).created_at = t.created_at ∧
      (Go.applyUpdate req now t).updated_at = now ∧
      (req.Title = none → (Go.applyUpdate req now t).title = t.title) ∧
      (req.Description = none →
        (Go.applyUpdate req now t).description = t.description) ∧
      (req.Completed = none → (Go.applyUpdate req now t).completed = t.completed) ∧
      (t.updated_at < now → t.updated_at < (Go.applyUpdate req now t).updated_at)) := by
  refine ⟨?_, ?_, ?_, ?_, ?_⟩
  · intro st now id t hid hfind
    simp [Go.UpdateTodo, hid, hfind, emptyUpdate, Go.noFields, Go.validateUpdateRequest]
  · intro st now id hid
    simp [Node.updateTodo, hid, Node.validateUpdateData, emptyUpdate, Go.noFields,
      Bind.bind, Except.bind, Pure.pure, Except.pure]
  · intro st now id req t hid hnf hval hfind
    have hmap := find?_map_ite st.rows id (Go.applyUpdate req now) (fun u => rfl)
    simp [Go.UpdateTodo, hid, hval, hfind, hnf, Go.updatedRows, hmap,
      Bind.bind, Except.bind, Pure.pure, Except.pure]
  · intro st now id req t hid hval hfind
    have hnf : Go.noFields req = false := by
      by_contra hcon
      have hcon2 : Go.noFields req = true := by simpa using hcon
      simp [Node.validateUpdateData, hcon2] at hval
    have hmap := find?_map_ite st.rows id (Go.applyUpdate req now) (fun u => rfl)
    simp [Node.updateTodo, hid, hval, hfind, Go.updatedRows, hmap,
      Bind.bind, Except.bind, Pure.pure, Except.pure]
  · intro req now t
    refine ⟨rfl, rfl, rfl, ?_, ?_, ?_, fun h => h⟩
    · intro h; simp [Go.applyUpdate, h]
    · intro h; simp [Go.applyUpdate, h]
    · intro h; simp [Go.applyUpdate, h]

/-- An update request supplying only the completed flag. -/
def completedOnly : Go.UpdateTodoRequest :=
  { Title := none, Description := none, Completed := some true }

/-- The concrete todo after applying completedOnly at time 5. -/
def t0done : Todo := Go.applyUpdate completedOnly 5 t0

/-- Witness for C5: a concrete no-op accepted by Go, a concrete rejection
by Node, and a concrete one-field update applied by Go. -/
theorem C5_update_field_presence_semantics_witness :
    Go.UpdateTodo { rows := [t0], seq := 1 } 5 1 emptyUpdate =
      .ok (some ({ rows := [t0], seq := 1 }, t0)) ∧
    Node.updateTodo { rows := [t0], seq := 1 } 5 1 emptyUpdate =
      .error "At least one field must be provided" ∧
    Go.UpdateTodo { rows := [t0], seq := 1 } 5 1 completedOnly =
      .ok (some ({ rows := [t0done], seq := 1 }, t0done)) := by
  refine ⟨?_, ?_, ?_⟩
  · exact C5_update_field_presence_semantics.1 { rows := [t0], seq := 1 } 5 1 t0
      (by decide) (by rfl)
  · exact C5_update_field_presence_semantics.2.1 { rows := [t0], seq := 1 } 5 1 (by decide)
  · exact C5_update_field_presence_semantics.2.2.1 { rows := [t0], seq := 1 } 5 1
      completedOnly t0 (by decide) (by rfl) (by rfl) (by rfl)

/-- A title of 250 letters padded with 10 trailing spaces: 260 characters
raw, 250 after trimming. -/
def longPaddedTitle : String :=
  String.mk (List.replicate 250 'a' ++ List.replicate 10 ' ')

set_option maxRecDepth 8000 in
/-- Claim C6, counterexample: the claim says the length rule applies to
the trimmed title, but both backends check the raw length. A title that is
250 characters after trimming but 260 characters raw is rejected. -/
theorem C6_raw_title_length_is_checked :
    (strTrim longPaddedTitle).length = 250 ∧ longPaddedTitle.length = 260 ∧
    Go.validateCreateRequest
      { Title := longPaddedTitle, Description := none, Completed := false } =
      .error "title cannot exceed 255 characters" ∧
    Node.validateTodoData longPaddedTitle none =
      .error "Title cannot exceed 255 characters" :=
  ⟨by decide, by decide, by rfl, by rfl⟩

/-- Claim C6 as amended: Create validates in the order title non-empty
after trim, then RAW (untrimmed) title length at most 255, then raw
description length at most 1000 if present, failing with the first
violated rule; for every input passing validation the returned entity has
id greater than 0, equal created_at and updated_at, and a persisted title
equal to the trimmed input title. -/
theorem C6_create_validation_order_and_success :
    (∀ req : Go.CreateTodoRequest,
      Go.validateCreateRequest req = .ok () ↔
        (strTrim req.Title ≠ "" ∧ req.Title.length ≤ 255 ∧
          ∀ d, req.Description = some d → d.length ≤ 1000)) ∧
    (∀ req : Go.CreateTodoRequest, strTrim req.Title = "" →
      Go.validateCreateRequest req = .error "title is required") ∧
    (∀ req : Go.CreateTodoRequest, strTrim req.Title ≠ "" → req.Title.length > 255 →
      Go.validateCreateRequest req = .error "title cannot exceed 255 characters") ∧
    (∀ (req : Go.CreateTodoRequest) (d : String), strTrim req.Title ≠ "" →
      req.Title.length ≤ 255 → req.Description = some d → d.length > 1000 →
      Go.validateCreateRequest req = .error "description cannot exceed 1000 characters") ∧
    (∀ (st : Store) (now : Nat) (req : Go.CreateTodoRequest) (st2 : Store) (t : Todo),
      Go.CreateTodo st now req = .ok (st2, t) →
      t.id > 0 ∧ t.created_at = t.updated_at ∧ t.title = strTrim req.Title ∧
      st2.rows = st.rows ++ [t]) ∧
    (∀ (st : Store) (now : Nat) (title : String) (descr : Option String) (c : Bool)
      (st2 : Store) (t : Todo),
      Node.createTodo st now title descr c = .ok (st2, t) →
      t.id > 0 ∧ t.created_at = t.updated_at ∧ t.title = strTrim title ∧
      st2.rows = st.rows ++ [t]) := by
  refine ⟨?_, ?_, ?_, ?_, ?_, ?_⟩
  · intro req
    cases hd : req.Description with
    | none =>
      by_cases h1 : strTrim req.Title = "" <;> by_cases h2 : req.Title.length > 255 <;>
        simp [Go.validateCreateRequest, hd, h1, h2] <;> omega
    | some d =>
      by_cases h1 : strTrim req.Title = "" <;> by_cases h2 : req.Title.length > 255 <;>
          by_cases h3 : d.length > 1000 <;>
        simp [Go.validateCreateRequest, hd, h1, h2, h3] <;> omega
  · intro req h1
    simp [Go.validateCreateRequest, h1]
  · intro req h1 h2
    simp [Go.validateCreateRequest, h1, h2]
  · intro req d h1 h2 hd h3
    have h2b : ¬ req.Title.length > 255 := by omega
    simp [Go.validateCreateRequest, h1, h2b, hd, h3]
  · intro st now req st2 t h
    unfold Go.CreateTodo at h
    cases hv : Go.validateCreateRequest req with
    | error e =>
      rw [hv] at h
      simp [Bind.bind, Except.bind] at h
    | ok u =>
      rw [hv] at h
      simp only [Bind.bind, Except.bind, Pure.pure, Except.pure, Except.ok.injEq] at h
      have hfst := congrArg Prod.fst h
      have hsnd := congrArg Prod.snd h
      simp only at hfst hsnd
      rw [← hsnd, ← hfst]
      exact ⟨Nat.succ_pos st.seq, rfl, rfl, rfl⟩
  · intro st now title descr c st2 t h
    unfold Node.createTodo at h
    cases hv : Node.validateTodoData title descr with
    | error e =>
      rw [hv] at h
      simp [Bind.bind, Except.bind] at h
    | ok u =>
      rw [hv] at h
      simp only [Bind.bind, Except.bind, Pure.pure, Except.pure, Except.ok.injEq] at h
      have hfst := congrArg Prod.fst h
      have hsnd := congrArg Prod.snd h
      simp only at hfst hsnd
      rw [← hsnd, ← hfst]
      exact ⟨Nat.succ_pos st.seq, rfl, rfl, rfl⟩

/-- A create request whose title and description carry extra whitespace. -/
def reqMilk : Go.CreateTodoRequest :=
  { Title := "  Buy milk  ", Description := some "   ", Completed := false }

/-- The entity stored for reqMilk at time 3 in an empty store. -/
def tMilk : Todo :=
  { id := 1, title := "Buy milk", description := none, completed := false,
    created_at := 3, updated_at := 3 }

/-- A title that is blank after trimming yet longer than 255 characters. -/
def spaces300 : String := String.mk (List.replicate 300 ' ')

set_option maxRecDepth 8000 in
/-- Witness for C6: the first-rule-wins order at a 300-space title (the
emptiness error wins over the length error) and the success-path shape at
a concrete create. -/
theorem C6_create_validation_order_and_success_witness :
    Go.validateCreateRequest
      { Title := spaces300, Description := none, Completed := false } =
      .error "title is required" ∧
    (tMilk.id > 0 ∧ tMilk.created_at = tMilk.updated_at ∧
      tMilk.title = strTrim reqMilk.Title ∧
      ({ rows := [tMilk], seq := 1 } : Store).rows = ([] : List Todo) ++ [tMilk]) := by
  constructor
  · exact C6_create_validation_order_and_success.2.1
      { Title := spaces300, Description := none, Completed := false } (by rfl)
  · exact C6_create_validation_order_and_success.2.2.2.2.1
      { rows := [], seq := 0 } 3 reqMilk { rows := [tMilk], seq := 1 } tMilk (by rfl)

/-- A query covering the whole table on one page: page 1 with a per-page
bound strictly larger than the table. -/
def fullQuery (search sort order : String) (db : List Todo) (c : Option Bool) : Go.QueryParams :=
  { Page := 1, PerPage := (db.length : Int) + 1, SortF := sort, Order := order,
    Search := search, Completed := c }

/-- On a whole-table page the repository returns every filtered row,
sorted. -/
theorem GetAll_fullQuery (db : List Todo) (search sort order : String) (c : Option Bool) :
    Go.GetAll db (fullQuery search sort order db c) =
      (sortRows (orderLe sort order) (db.filter (matchesWhere (Go.searchOpt search) c)),
       (db.filter (matchesWhere (Go.searchOpt search) c)).length) := by
  unfold Go.GetAll fullQuery
  simp only
  have h0 : ((1 - 1) * ((db.length : Int) + 1)).toNat = 0 := by norm_num
  have hlen : (sortRows (orderLe sort order)
      (db.filter (matchesWhere (Go.searchOpt search) c))).length ≤
      ((db.length : Int) + 1).toNat := by
    rw [(sortRows_perm _ _).length_eq]
    have := db.length_filter_le (matchesWhere (Go.searchOpt search) c)
    omega
  rw [h0, List.drop_zero, List.take_of_length_le hlen]

/-- The completed-equality condition factors out of the WHERE clause. -/
theorem matchesWhere_some (s : Option String) (b : Bool) (t : Todo) :
    matchesWhere s (some b) t = (matchesWhere s none t && (t.completed == b)) := by
  cases ht : t.completed <;> cases b <;> simp [matchesWhere, ht, Bool.and_true]

/-- Node validated options covering the whole table on one page. -/
def fullOptions (search : Option String) (sort order : String) (db : List Todo)
    (c : Option Bool) : Node.ValidatedOptions :=
  { page := 1, per_page := (db.length : Int) + 1, sort := sort, order := order,
    search := search, completed := c }

/-- On a whole-table page the Node repository returns every filtered row,
sorted, and the true total. -/
theorem findAll_fullOptions (db : List Todo) (search : Option String)
    (sort order : String) (c : Option Bool) :
    (Node.findAll db (fullOptions search sort order db c)).data =
      sortRows (orderLe sort order)
        (db.filter (matchesWhere (Node.searchOptN search) c)) ∧
    (Node.findAll db (fullOptions search sort order db c)).total =
      (db.filter (matchesWhere (Node.searchOptN search) c)).length := by
  unfold Node.findAll fullOptions
  simp only
  have h0 : ((1 - 1) * ((db.length : Int) + 1)).toNat = 0 := by norm_num
  have hlen : (sortRows (orderLe sort order)
      (db.filter (matchesWhere (Node.searchOptN search) c))).length ≤
      ((db.length : Int) + 1).toNat := by
    rw [(sortRows_perm _ _).length_eq]
    have := db.length_filter_le (matchesWhere (Node.searchOptN search) c)
    omega
  rw [h0, List.drop_zero, List.take_of_length_le hlen]
  exact ⟨rfl, trivial⟩

/-- Claim C7: in both backends, List with completedFilter true returns
only entities with completed true (on any page), and on a whole-table
page the results for completedFilter true and false together are a
permutation of the unfiltered result at the same search and sort, with
their totals adding up to the unfiltered total. -/
theorem C7_completed_filter_partition (db : List Todo) (search sort order : String)
    (nsearch : Option String) :
    (∀ (q : Go.QueryParams) (b : Bool) (t : Todo), q.Completed = some b →
      t ∈ (Go.GetAll db q).1 → t.completed = b) ∧
    ((Go.GetAll db (fullQuery search sort order db (some true))).1 ++
      (Go.GetAll db (fullQuery search sort order db (some false))).1).Perm
        (Go.GetAll db (fullQuery search sort order db none)).1 ∧
    (Go.GetAll db (fullQuery search sort order db (some true))).2 +
      (Go.GetAll db (fullQuery search sort order db (some false))).2 =
      (Go.GetAll db (fullQuery search sort order db none)).2 ∧
    (∀ (v : Node.ValidatedOptions) (b : Bool) (t : Todo), v.completed = some b →
      t ∈ (Node.findAll db v).data → t.completed = b) ∧
    ((Node.findAll db (fullOptions nsearch sort order db (some true))).data ++
      (Node.findAll db (fullOptions nsearch sort order db (some false))).data).Perm
        (Node.findAll db (fullOptions nsearch sort order db none)).data ∧
    (Node.findAll db (fullOptions nsearch sort order db (some true))).total +
      (Node.findAll db (fullOptions nsearch sort order db (some false))).total =
      (Node.findAll db (fullOptions nsearch sort order db none)).total := by
  have hfilter : ∀ (s : Option String) (b : Bool),
      db.filter (matchesWhere s (some b)) =
        db.filter (fun t => matchesWhere s none t && (t.completed == b)) := by
    intro s b
    apply List.filter_congr
    intro t _
    exact matchesWhere_some s b t
  have hpart : ∀ s : Option String,
      (db.filter (fun t => matchesWhere s none t && t.completed) ++
        db.filter (fun t => matchesWhere s none t && !t.completed)).Perm
          (db.filter (matchesWhere s none)) :=
    fun s => filter_completed_partition _ db
  have htrue : ∀ s : Option String, db.filter (matchesWhere s (some true)) =
      db.filter (fun t => matchesWhere s none t && t.completed) := by
    intro s
    rw [hfilter s true]
    apply List.filter_congr
    intro t _
    cases ht : t.completed <;> simp [ht]
  have hfalse : ∀ s : Option String, db.filter (matchesWhere s (some false)) =
      db.filter (fun t => matchesWhere s none t && !t.completed) := by
    intro s
    rw [hfilter s false]
    apply List.filter_congr
    intro t _
    cases ht : t.completed <;> simp [ht]
  have honly : ∀ (s : Option String) (sf so : String) (b : Bool) (t : Todo)
      (off take2 : Nat),
      t ∈ ((sortRows (orderLe sf so)
        (db.filter (matchesWhere s (some b)))).drop off).take take2 →
      t.completed = b := by
    intro s sf so b t off take2 hmem
    have h1 : t ∈ sortRows (orderLe sf so) (db.filter (matchesWhere s (some b))) :=
      List.mem_of_mem_drop (List.mem_of_mem_take hmem)
    have h2 : t ∈ db.filter (matchesWhere s (some b)) :=
      (sortRows_perm _ _).mem_iff.mp h1
    have h3 := (List.mem_filter.mp h2).2
    have h4 := (Bool.and_elim_right h3)
    exact of_decide_eq_true h4
  refine ⟨?_, ?_, ?_, ?_, ?_, ?_⟩
  · intro q b t hq hmem
    rw [Go.GetAll, hq] at hmem
    exact honly (Go.searchOpt q.Search) q.SortF q.Order b t _ _ hmem
  · rw [GetAll_fullQuery, GetAll_fullQuery, GetAll_fullQuery]
    simp only
    rw [htrue, hfalse]
    refine ((List.Perm.append (sortRows_perm _ _) (sortRows_perm _ _)).trans
      (hpart _)).trans (sortRows_perm _ _).symm
  · rw [GetAll_fullQuery, GetAll_fullQuery, GetAll_fullQuery]
    simp only
    rw [htrue, hfalse]
    have hlen := (hpart (Go.searchOpt search)).length_eq
    rw [List.length_append] at hlen
    exact hlen
  · intro v b t hv hmem
    rw [Node.findAll] at hmem
    simp only at hmem
    rw [hv] at hmem
    exact honly (Node.searchOptN v.search) v.sort v.order b t _ _ hmem
  · rw [(findAll_fullOptions db nsearch sort order (some true)).1,
      (findAll_fullOptions db nsearch sort order (some false)).1,
      (findAll_fullOptions db nsearch sort order none).1]
    rw [htrue, hfalse]
    refine ((List.Perm.append (sortRows_perm _ _) (sortRows_perm _ _)).trans
      (hpart _)).trans (sortRows_perm _ _).symm
  · rw [(findAll_fullOptions db nsearch sort order (some true)).2,
      (findAll_fullOptions db nsearch sort order (some false)).2,
      (findAll_fullOptions db nsearch sort order none).2]
    rw [htrue, hfalse]
    have hlen := (hpart (Node.searchOptN nsearch)).length_eq
    rw [List.length_append] at hlen
    exact hlen

/-- A concrete completed todo. -/
def t1c : Todo :=
  { id := 2, title := "Done", description := none, completed := true,
    created_at := 1, updated_at := 1 }

/-- Witness for C7: membership in the data of concrete completed-filtered
List calls — a Go call with filter true and a Node call with filter
false — forces the flags of the returned rows. -/
theorem C7_completed_filter_partition_witness :
    t1c.completed = true ∧ t0.completed = false := by
  constructor
  · exact (C7_completed_filter_partition [t0, t1c] "" "id" "asc" none).1
      (fullQuery "" "id" "asc" [t0, t1c] (some true)) true t1c rfl (by decide)
  · exact (C7_completed_filter_partition [t0, t1c] "" "id" "asc" none).2.2.2.1
      (fullOptions none "id" "asc" [t0, t1c] (some false)) false t0 rfl (by decide)

/-- A well-formed stored description: absent, or non-empty and trimmed. -/
def descFieldOk (o : Option String) : Bool :=
  match o with
  | some d => d ≠ "" && (strTrim d = d)
  | none => true

/-- Row-level description well-formedness. -/
def descOk (t : Todo) : Bool := descFieldOk t.description

/-- Table-level description invariant. -/
def descInvariant (rows : List Todo) : Prop := ∀ t ∈ rows, descOk t = true

/-- Normalizing a description (trim, collapse blank to absent) always
yields a well-formed stored description. -/
theorem descFieldOk_normalize (d : Option String) :
    descFieldOk
      (match d with
       | some s => if strTrim s = "" then none else some (strTrim s)
       | none => none) = true := by
  cases d with
  | none => rfl
  | some s =>
    by_cases he : strTrim s = ""
    · simp [he, descFieldOk]
    · simp [he, descFieldOk, strTrim_idem]

/-- The Node sanitizer always yields a well-formed stored description. -/
theorem descFieldOk_sanitizeDesc (d : Option String) :
    descFieldOk (Node.sanitizeDesc d) = true :=
  descFieldOk_normalize d

/-- Applying an update keeps the row description well formed. -/
theorem descOk_applyUpdate (req : Go.UpdateTodoRequest) (now : Nat) (t : Todo)
    (h : descOk t = true) : descOk (Go.applyUpdate req now t) = true := by
  cases hD : req.Description with
  | none => simpa [descOk, Go.applyUpdate, hD] using h
  | some s =>
    have := descFieldOk_normalize (some s)
    simpa [descOk, Go.applyUpdate, hD] using this

/-- The shape of a successful Go create: the row is appended and its
description is normalized. -/
theorem CreateTodo_ok_shape (st : Store) (now : Nat) (req : Go.CreateTodoRequest)
    (st2 : Store) (t : Todo) (h : Go.CreateTodo st now req = .ok (st2, t)) :
    st2.rows = st.rows ++ [t] ∧ descOk t = true := by
  unfold Go.CreateTodo at h
  cases hv : Go.validateCreateRequest req with
  | error e =>
    rw [hv] at h
    simp [Bind.bind, Except.bind] at h
  | ok u =>
    rw [hv] at h
    simp only [Bind.bind, Except.bind, Pure.pure, Except.pure, Except.ok.injEq] at h
    have hfst := congrArg Prod.fst h
    have hsnd := congrArg Prod.snd h
    simp only at hfst hsnd
    rw [← hsnd, ← hfst]
    exact ⟨rfl, descFieldOk_normalize req.Description⟩

/-- The shape of a successful Node create. -/
theorem createTodo_ok_shape (st : Store) (now : Nat) (title : String)
    (descr : Option String) (c : Bool) (st2 : Store) (t : Todo)
    (h : Node.createTodo st now title descr c = .ok (st2, t)) :
    st2.rows = st.rows ++ [t] ∧ descOk t = true := by
  unfold Node.createTodo at h
  cases hv : Node.validateTodoData title descr with
  | error e =>
    rw [hv] at h
    simp [Bind.bind, Except.bind] at h
  | ok u =>
    rw [hv] at h
    simp only [Bind.bind, Except.bind, Pure.pure, Except.pure, Except.ok.injEq] at h
    have hfst := congrArg Prod.fst h
    have hsnd := congrArg Prod.snd h
    simp only at hfst hsnd
    rw [← hsnd, ← hfst]
    exact ⟨rfl, descFieldOk_sanitizeDesc descr⟩

/-- A successful Go update leaves the table unchanged or rewrites it with
updatedRows. -/
theorem UpdateTodo_ok_shape (st : Store) (now id : Nat) (req : Go.UpdateTodoRequest)
    (st2 : Store) (t : Todo)
    (h : Go.UpdateTodo st now id req = .ok (some (st2, t))) :
    st2 = st ∨ st2 = { st with rows := Go.updatedRows req now id st.rows } := by
  unfold Go.UpdateTodo at h
  by_cases hid : id = 0
  · simp [hid, Bind.bind, Except.bind] at h
  · simp only [if_neg hid, Bind.bind, Except.bind, Pure.pure, Except.pure] at h
    cases hv : Go.validateUpdateRequest req with
    | error e =>
      rw [hv] at h
      simp at h
    | ok u =>
      rw [hv] at h
      cases hf : st.rows.find? (fun u => u.id = id) with
      | none =>
        rw [hf] at h
        simp [Pure.pure, Except.pure] at h
      | some tf =>
        rw [hf] at h
        by_cases hnf : Go.noFields req
        · simp only [hnf, if_true, Pure.pure, Except.pure, Except.ok.injEq,
            Option.some.injEq] at h
          left
          exact (congrArg Prod.fst h).symm
        · simp only [hnf, if_false, Bool.false_eq_true] at h
          cases hf2 : (Go.updatedRows req now id st.rows).find? (fun u => u.id = id) with
          | none =>
            rw [hf2] at h
            simp [Pure.pure, Except.pure] at h
          | some t1 =>
            rw [hf2] at h
            simp only [Pure.pure, Except.pure, Except.ok.injEq, Option.some.injEq] at h
            right
            exact (congrArg Prod.fst h).symm

/-- A successful Node update rewrites the table with updatedRows. -/
theorem updateTodo_ok_shape (st : Store) (now id : Nat) (req : Go.UpdateTodoRequest)
    (st2 : Store) (t : Todo)
    (h : Node.updateTodo st now id req = .ok (st2, t)) :
    st2 = { st with rows := Go.updatedRows req now id st.rows } := by
  unfold Node.updateTodo at h
  by_cases hid : id = 0
  · simp [hid, Bind.bind, Except.bind] at h
  · simp only [if_neg hid, Bind.bind, Except.bind, Pure.pure, Except.pure] at h
    cases hv : Node.validateUpdateData req with
    | error e =>
      rw [hv] at h
      simp at h
    | ok u =>
      rw [hv] at h
      cases hf : st.rows.find? (fun u => u.id = id) with
      | none =>
        rw [hf] at h
        simp [throw, throwThe, MonadExceptOf.throw] at h
      | some tf =>
        rw [hf] at h
        cases hf2 : (Go.updatedRows req now id st.rows).find? (fun u => u.id = id) with
        | none =>
          rw [hf2] at h
          simp [throw, throwThe, MonadExceptOf.throw] at h
        | some t1 =>
          rw [hf2] at h
          simp only [Pure.pure, Except.pure, Except.ok.injEq] at h
          exact (congrArg Prod.fst h).symm

/-- Mapping updatedRows over a well-formed table keeps it well formed. -/
theorem descInvariant_updatedRows (req : Go.UpdateTodoRequest) (now id : Nat)
    (rows : List Todo) (h : descInvariant rows) :
    descInvariant (Go.updatedRows req now id rows) := by
  intro t ht
  rw [Go.updatedRows, List.mem_map] at ht
  obtain ⟨u, hu, hut⟩ := ht
  rw [← hut]
  by_cases hid : u.id = id
  · rw [if_pos hid]
    exact descOk_applyUpdate req now u (h u hu)
  · rw [if_neg hid]
    exact h u hu

/-- Claim C8: after every Create or Update, in both backends, a persisted
description is never the empty string — a blank supplied description is
stored as absent, and a present description is a non-empty trimmed
string. -/
theorem C8_description_never_empty :
    (∀ (st : Store) (now : Nat) (req : Go.CreateTodoRequest) (st2 : Store) (t : Todo),
      descInvariant st.rows → Go.CreateTodo st now req = .ok (st2, t) →
      descInvariant st2.rows) ∧
    (∀ (st : Store) (now id : Nat) (req : Go.UpdateTodoRequest) (st2 : Store) (t : Todo),
      descInvariant st.rows → Go.UpdateTodo st now id req = .ok (some (st2, t)) →
      descInvariant st2.rows) ∧
    (∀ (st : Store) (now : Nat) (title : String) (descr : Option String) (c : Bool)
      (st2 : Store) (t : Todo),
      descInvariant st.rows → Node.createTodo st now title descr c = .ok (st2, t) →
      descInvariant st2.rows) ∧
    (∀ (st : Store) (now id : Nat) (req : Go.UpdateTodoRequest) (st2 : Store) (t : Todo),
      descInvariant st.rows → Node.updateTodo st now id req = .ok (st2, t) →
      descInvariant st2.rows) := by
  refine ⟨?_, ?_, ?_, ?_⟩
  · intro st now req st2 t hinv h
    obtain ⟨hrows, hok⟩ := CreateTodo_ok_shape st now req st2 t h
    rw [hrows]
    intro u hu
    rcases List.mem_append.mp hu with hu | hu
    · exact hinv u hu
    · rw [List.mem_singleton.mp hu]
      exact hok
  · intro st now id req st2 t hinv h
    rcases UpdateTodo_ok_shape st now id req st2 t h with h2 | h2
    · rw [h2]; exact hinv
    · rw [h2]
      exact descInvariant_updatedRows req now id st.rows hinv
  · intro st now title descr c st2 t hinv h
    obtain ⟨hrows, hok⟩ := createTodo_ok_shape st now title descr c st2 t h
    rw [hrows]
    intro u hu
    rcases List.mem_append.mp hu with hu | hu
    · exact hinv u hu
    · rw [List.mem_singleton.mp hu]
      exact hok
  · intro st now id req st2 t hinv h
    rw [updateTodo_ok_shape st now id req st2 t h]
    exact descInvariant_updatedRows req now id st.rows hinv

/-- Witness for C8: creating from a concrete blank description in an empty
store yields a well-formed table. -/
theorem C8_description_never_empty_witness :
    descInvariant ({ rows := [tMilk], seq := 1 } : Store).rows :=
  C8_description_never_empty.1 { rows := [], seq := 0 } 3 reqMilk
    { rows := [tMilk], seq := 1 } tMilk (fun t ht => absurd ht (List.not_mem_nil t))
    (by rfl)

/-- A todo titled abc. -/
def tAbc : Todo :=
  { id := 1, title := "abc", description := none, completed := false,
    created_at := 0, updated_at := 0 }

/-- A todo titled aXYZc. -/
def tLong : Todo :=
  { id := 2, title := "aXYZc", description := none, completed := true,
    created_at := 1, updated_at := 1 }

/-- Claim C9: in the search condition both repositories build, percent and
underscore act as SQL LIKE wildcards — underscore consumes exactly one
arbitrary character and percent consumes an arbitrary gap — so matching is
not literal substring containment: the term a_c selects the row titled
abc, and the term with a percent selects the row titled aXYZc, although
neither term occurs literally in those titles. -/
theorem C9_search_wildcards :
    (∀ (ps : List Char) (c : Char) (s : List Char),
      likeMatch ('_' :: ps) (c :: s) = likeMatch ps s) ∧
    (∀ (ps s1 s2 : List Char),
      likeMatch ps s2 = true → likeMatch ('%' :: ps) (s1 ++ s2) = true) ∧
    Go.GetAll [tAbc, tLong]
      { Page := 1, PerPage := 10, SortF := "id", Order := "asc",
        Search := "a_c", Completed := none } = ([tAbc], 1) ∧
    ¬ ("a_c".data <:+: "abc".data) ∧
    (Node.findAll [tAbc, tLong]
      { page := 1, per_page := 10, sort := "id", order := "asc",
        search := some "a%c", completed := none }).data = [tAbc, tLong] ∧
    ¬ ("a%c".data <:+: "aXYZc".data) := by
  refine ⟨fun ps c s => rfl, ?_, by rfl, by decide, by rfl, by decide⟩
  intro ps s1 s2 h
  show ((s1 ++ s2).tails.any (fun t => likeMatch ps t)) = true
  exact List.any_eq_true.mpr ⟨s2, (List.mem_tails s2 (s1 ++ s2)).mpr (List.suffix_append s1 s2), h⟩

/-- Witness for C9: the percent wildcard lemma applied at a concrete
pattern and gap. -/
theorem C9_search_wildcards_witness :
    likeMatch ('%' :: "c".data) ("aXYZ".data ++ "c".data) = true :=
  C9_search_wildcards.2.1 "c".data "aXYZ".data "c".data (by rfl)

/-- The page clamp both backends apply: a page below 1 becomes 1. -/
def clampPage (i : Int) : Int := if i < 1 then 1 else i

/-- The per-page clamp both backends apply: a per-page outside 1..100
becomes 20. -/
def clampPerPage (i : Int) : Int := if i < 1 || i > 100 then 20 else i

/-- A query with each pagination parameter clamped independently. -/
def clampParams (p : Go.QueryParams) : Go.QueryParams :=
  { p with Page := clampPage p.Page, PerPage := clampPerPage p.PerPage }

/-- For any page and per-page, with a valid sort and order, the Go service
clamps each parameter independently and queries with the clamped values,
echoing them in the response. -/
theorem GetTodos_clamp (db : List Todo) (p : Go.QueryParams)
    (hsort : Go.validSortFields.contains p.SortF = true)
    (horder : p.Order = "asc" ∨ p.Order = "desc") :
    Go.GetTodos db p = .ok
      { Data := (Go.GetAll db (clampParams p)).1,
        Total := (Go.GetAll db (clampParams p)).2,
        Page := clampPage p.Page, PerPage := clampPerPage p.PerPage,
        TotalPages := ((Go.GetAll db (clampParams p)).2 +
          (clampPerPage p.PerPage).toNat - 1) / (clampPerPage p.PerPage).toNat } := by
  have hsne : p.SortF ≠ "" := by
    intro h
    rw [h] at hsort
    simp [Go.validSortFields] at hsort
  have hone : p.Order ≠ "" := by
    rcases horder with h | h <;> simp [h]
  have hmem : p.SortF ∈ Go.validSortFields := by simpa using hsort
  have horderb : (decide (p.Order ≠ "asc") && decide (p.Order ≠ "desc")) = false := by
    rcases horder with h | h <;> simp [h]
  simp only [Go.GetTodos, clampParams, clampPage, clampPerPage,
    if_neg hsne, if_neg hone, horderb, hmem]
  simp
  exact hmem

/-- Claim C10, counterexample: a call with page 0 (out of range) and
per_page 50 (in range) echoes page 1 and per_page 50 in both backends —
not the pair page 1, per_page 20 the claim asserts for every call with
either parameter out of range. -/
theorem C10_mixed_range_keeps_valid_per_page :
    (Go.GetTodos [t0]
      { Page := 0, PerPage := 50, SortF := "id", Order := "asc",
        Search := "", Completed := none }).map (fun r => (r.Page, r.PerPage)) =
      .ok ((1 : Int), (50 : Int)) ∧
    (Node.validateQueryOptions
      { page := some 0, per_page := some 50, sort := none, order := none,
        search := none, completed := none }).map (fun v => (v.page, v.per_page)) =
      .ok ((1 : Int), (50 : Int)) ∧
    (50 : Int) ≠ 20 :=
  ⟨by rfl, by rfl, by decide⟩

/-- Claim C10 as amended: each pagination parameter is clamped
independently — a page below 1 becomes 1 and a per-page outside 1..100
becomes 20, while an in-range companion value is kept as supplied — and
the page and per-page echoed in the envelope are exactly the clamped
values used to compute the data slice and the page count, in the Go
service and through the Node validate-then-query pipeline. -/
theorem C10_independent_clamping_echo (db : List Todo) (p : Go.QueryParams)
    (hsort : Go.validSortFields.contains p.SortF = true)
    (horder : p.Order = "asc" ∨ p.Order = "desc") :
    (∃ r, Go.GetTodos db p = .ok r ∧
      r.Page = clampPage p.Page ∧ r.PerPage = clampPerPage p.PerPage ∧
      r.Data = (Go.GetAll db (clampParams p)).1 ∧
      r.Total = (Go.GetAll db (clampParams p)).2 ∧
      r.TotalPages = r.Total ⌈/⌉ (clampPerPage p.PerPage).toNat) ∧
    (∀ (o : Node.QueryOptions) (v : Node.ValidatedOptions) (pg pp : Int),
      Node.validateQueryOptions o = .ok v →
      o.page = some pg → o.per_page = some pp →
      v.page = clampPage pg ∧ v.per_page = clampPerPage pp ∧
      Node.getTodos db o = .ok (Node.findAll db v) ∧
      (Node.findAll db v).page = v.page ∧
      (Node.findAll db v).per_page = v.per_page) := by
  constructor
  · exact ⟨_, GetTodos_clamp db p hsort horder, rfl, rfl, rfl, rfl,
      (Nat.ceilDiv_eq_add_pred_div _ _).symm⟩
  · intro o v pg pp hok hpg hppe
    have hgt : Node.getTodos db o = .ok (Node.findAll db v) := by
      simp [Node.getTodos, hok, Bind.bind, Except.bind, Pure.pure, Except.pure]
    simp only [Node.validateQueryOptions, hpg, hppe, Option.getD_some] at hok
    split at hok
    · exact absurd hok (by simp)
    · injection hok with h
      refine ⟨?_, ?_, hgt, rfl, rfl⟩
      · rw [← h]
        rfl
      · rw [← h]
        rfl

/-- A concrete mixed-range query: page out of range, per-page in range. -/
def pMixed : Go.QueryParams :=
  { Page := 0, PerPage := 50, SortF := "id", Order := "asc",
    Search := "", Completed := none }

/-- The Node options with page 0 and per_page 50. -/
def qMixed : Node.QueryOptions :=
  { page := some 0, per_page := some 50, sort := none, order := none,
    search := none, completed := none }

/-- The options qMixed validates to: page clamped, per_page kept. -/
def vMixed : Node.ValidatedOptions :=
  { page := 1, per_page := 50, sort := "created_at", order := "desc",
    search := none, completed := none }

/-- Witness for C10 at the concrete mixed-range inputs for both
backends. -/
theorem C10_independent_clamping_echo_witness :
    (∃ r, Go.GetTodos [t0] pMixed = .ok r ∧ r.Page = 1 ∧ r.PerPage = 50) ∧
    vMixed.page = 1 ∧ vMixed.per_page = 50 := by
  obtain ⟨⟨r, hr, hp, hpp, -⟩, hnode⟩ :=
    C10_independent_clamping_echo [t0] pMixed (by decide) (Or.inl rfl)
  obtain ⟨hv1, hv2, -⟩ := hnode qMixed vMixed 0 50 (by rfl) rfl rfl
  refine ⟨⟨r, hr, ?_, ?_⟩, ?_, ?_⟩
  · rw [hp]
    decide
  · rw [hpp]
    decide
  · rw [hv1]
    decide
  · rw [hv2]
    decide

end TodoSpec
